import Mathlib

/-!
Shallow embedding of the core of Movie-Recommendations-for-Plex
(src/MRFP.py, with the earlier revision src/RFP.py): the incremental
movie metadata cache, the taste-profile counter accumulation, the
similarity scorer and the recommendation selection, together with
theorems settling the specification claims about them.

Numeric values that are floats in the source are modelled as rationals
(and as reals inside the scorer, where a square root occurs).
-/

namespace MRFP

/-- A per-movie metadata record, in the shape stored by
`MovieCache.update_cache` (src/MRFP.py lines 273-289) and consumed by the
counter accumulation and the similarity scorer.  Absent optional ratings
are `none`; the language field uses the source's sentinel string "N/A". -/
structure MovieInfo where
  title : String
  year : Option Int
  genres : List String
  directors : List String
  cast : List String
  language : String
  tmdb_keywords : List String
  tmdb_id : Option Int
  user_rating : Option ℚ
  audience_rating : Option ℚ
  deriving DecidableEq

/-- A frequency table (a Python `collections.Counter` with float values):
an insertion-ordered association list from feature value to accumulated
weight. -/
abbrev Counter := List (String × ℚ)

/-- `counter.get(key, 0)`: the stored weight of a key, 0 when absent. -/
def cget : Counter → String → ℚ
  | [], _ => 0
  | (k, v) :: rest, key => if k = key then v else cget rest key

/-- `counter[key] += v`: add to an existing entry, or append a new one
(Python dicts preserve insertion order). -/
def cadd (c : Counter) (key : String) (v : ℚ) : Counter :=
  if c.any (fun p => p.1 == key) then
    c.map (fun p => if p.1 = key then (p.1, p.2 + v) else p)
  else c ++ [(key, v)]

/-- Helper for `cmax`: fold of `max` over a list of values. -/
def valsMax : ℚ → List ℚ → ℚ
  | acc, [] => acc
  | acc, v :: vs => valsMax (max acc v) vs

/-- `max(counter.values()) if counter else 1`, as used for `max_counts` in
`_calculate_similarity_from_cache` (src/MRFP.py lines 1938-1944). -/
def cmax : Counter → ℚ
  | [] => 1
  | (_, v) :: rest => valsMax v (rest.map Prod.snd)

/-- The `RATING_MULTIPLIERS` table (src/MRFP.py lines 68-80) together with
`dict.get`'s default of 1.0 for keys outside 0..10. -/
def ratingMultipliersGet (k : ℤ) : ℚ :=
  if k = 0 then 1/10 else if k = 1 then 2/10 else if k = 2 then 4/10
  else if k = 3 then 6/10 else if k = 4 then 8/10 else if k = 5 then 1
  else if k = 6 then 12/10 else if k = 7 then 14/10 else if k = 8 then 16/10
  else if k = 9 then 18/10 else if k = 10 then 2 else 1

/-- Python's `round()` on a rational: round half to even. -/
def pyRound (q : ℚ) : ℤ :=
  if q - (⌊q⌋ : ℚ) < 1/2 then ⌊q⌋
  else if 1/2 < q - (⌊q⌋ : ℚ) then ⌊q⌋ + 1
  else if Even ⌊q⌋ then ⌊q⌋ else ⌊q⌋ + 1

/-- The rating fed into the multiplier lookup: `user_rating` when present
and non-zero, else `audience_rating`, else the default 5.0
(`_process_movie_counters_from_cache`, src/MRFP.py lines 992-994). -/
def effectiveRating (m : MovieInfo) : ℚ :=
  let r := m.user_rating.getD 0
  if r = 0 then m.audience_rating.getD 5 else r

/-- `multiplier = RATING_MULTIPLIERS.get(max(0, min(10, int(round(rating)))), 1.0)`
(src/MRFP.py lines 995-996). -/
def ratingMultiplier (m : MovieInfo) : ℚ :=
  ratingMultipliersGet (max 0 (min 10 (pyRound (effectiveRating m))))

/-- A movie as returned by the Plex library listing, carrying the
attributes `update_cache` reads after `movie.reload()`.  `roles` is the
full credited cast list; `language` abstracts `_get_movie_language`. -/
structure PlexMovie where
  ratingKey : String
  title : String
  year : Option Int
  genres : List String
  directors : List String
  roles : List String
  language : String
  userRating : Option ℚ
  audienceRating : Option ℚ
  deriving DecidableEq

/-- The rating extraction in `update_cache` (src/MRFP.py lines 248-267):
`userRating` when present and truthy, else `audienceRating`; the further
ratings-collection fallback is absorbed into `audienceRating`. -/
def extractedAudienceRating (p : PlexMovie) : ℚ :=
  if p.userRating.getD 0 ≠ 0 then p.userRating.getD 0
  else p.audienceRating.getD 0

/-- The `movie_info` record `update_cache` builds and stores for a newly
seen movie (src/MRFP.py lines 273-289): genres lowercased, cast truncated
to the first 3 credited roles, the audience rating stored only when
positive.  The TMDB enrichment results are passed in as `tmdb_id` and
`tmdb_keywords`. -/
def fetchMovieInfo (p : PlexMovie) (tmdb_id : Option Int)
    (tmdb_keywords : List String) : MovieInfo :=
  { title := p.title
    year := p.year
    genres := p.genres.map (fun g => g.toLower)
    directors := p.directors
    cast := p.roles.take 3
    language := p.language
    tmdb_keywords := tmdb_keywords
    tmdb_id := tmdb_id
    user_rating := none
    audience_rating :=
      if 0 < extractedAudienceRating p then some (extractedAudienceRating p)
      else none }

/-- The persisted state of `MovieCache`: the id-keyed record store and the
`library_count` checkpoint. -/
structure MovieCacheState where
  movies : List (String × MovieInfo)
  library_count : ℕ
  deriving DecidableEq

/-- `MovieCache.update_cache` (src/MRFP.py lines 115-299) as a pure
function.  `live` is the current library listing; `enrich` models the TMDB
id and keyword lookups for a new movie (deterministic within one call).
Returns the new cache state, the boolean the method returns, and the
number of new movies fetched and analyzed. -/
def update_cache (cache : MovieCacheState) (live : List PlexMovie)
    (enrich : String → Option Int × List String) :
    MovieCacheState × Bool × ℕ :=
  let current_count := live.length
  if current_count = cache.library_count then (cache, false, 0)
  else
    let current_ids := live.map (fun mv => mv.ratingKey)
    let kept := cache.movies.filter (fun p => current_ids.contains p.1)
    let existing_ids := kept.map Prod.fst
    let new_movies := live.filter (fun mv => !(existing_ids.contains mv.ratingKey))
    let added := new_movies.map (fun mv =>
      (mv.ratingKey, fetchMovieInfo mv (enrich mv.ratingKey).1 (enrich mv.ratingKey).2))
    ({ movies := kept ++ added, library_count := current_count }, true,
      new_movies.length)

/-- A movie record with every optional field absent, used for concrete
test inputs. -/
def emptyInfo : MovieInfo :=
  { title := "x", year := none, genres := [], directors := [], cast := []
    language := "N/A", tmdb_keywords := [], tmdb_id := none
    user_rating := none, audience_rating := none }

/-- A cache holding exactly the movie with id "1", with checkpoint 1. -/
def c1Cache : MovieCacheState :=
  { movies := [("1", emptyInfo)], library_count := 1 }

/-- A live library listing holding exactly the (different) movie "2". -/
def c1Live : List PlexMovie :=
  [{ ratingKey := "2", title := "y", year := none, genres := []
     directors := [], roles := [], language := "N/A"
     userRating := none, audienceRating := none }]

/-- C1 counterexample: a refresh whose live collection has the same
cardinality as the stored checkpoint but different membership (id "1"
removed, id "2" added) is NOT detected: `update_cache` returns
changed == False, removes nothing and fetches nothing. -/
theorem C1_counterexample :
    update_cache c1Cache c1Live (fun _ => (none, [])) = (c1Cache, false, 0) ∧
    c1Live.length = c1Cache.library_count ∧
    c1Live.map (fun mv => mv.ratingKey) ≠ c1Cache.movies.map Prod.fst := by
  decide

/-- C1 (amended): whenever the live collection's cardinality equals the
stored checkpoint count, `update_cache` immediately returns
changed == False with the cache untouched and zero fetches — membership
changes that preserve cardinality go undetected, because the
invalidation check is count-based and the membership diff only runs when
the cardinality differs. -/
theorem C1_count_equal_skips_refresh (cache : MovieCacheState)
    (live : List PlexMovie) (enrich : String → Option Int × List String)
    (h : live.length = cache.library_count) :
    update_cache cache live enrich = (cache, false, 0) := by
  simp [update_cache, h]

/-- Witness for C1 (amended) at the concrete counterexample input. -/
theorem C1_count_equal_skips_refresh_witness :
    c1Live.length = c1Cache.library_count ∧
    update_cache c1Cache c1Live (fun _ => (none, [])) = (c1Cache, false, 0) :=
  ⟨by decide, C1_count_equal_skips_refresh c1Cache c1Live _ (by decide)⟩

/-- C5: a second refresh immediately after a completed refresh, with the
same live listing, performs zero metadata fetches, reports
changed == False and leaves the stored records unchanged (the first
refresh leaves `library_count` equal to the live cardinality, so the
second call takes the fast path). -/
theorem C5_refresh_idempotent (cache : MovieCacheState)
    (live : List PlexMovie) (enrich : String → Option Int × List String) :
    update_cache (update_cache cache live enrich).1 live enrich =
      ((update_cache cache live enrich).1, false, 0) := by
  by_cases h : live.length = cache.library_count
  · simp [update_cache, h]
  · simp [update_cache, h]

lemma pyRound_intCast (n : ℤ) : pyRound (n : ℚ) = n := by
  unfold pyRound
  norm_num

lemma floor_le_pyRound (q : ℚ) : ⌊q⌋ ≤ pyRound q := by
  unfold pyRound
  split
  · exact le_refl _
  · split
    · omega
    · split <;> omega

lemma pyRound_le_floor_add_one (q : ℚ) : pyRound q ≤ ⌊q⌋ + 1 := by
  unfold pyRound
  split
  · omega
  · split
    · omega
    · split <;> omega

lemma pyRound_eval (n : ℤ) (q : ℚ) (h : q = (n : ℚ)) : pyRound q = n := by
  rw [h, pyRound_intCast]

/-- Clamping to the integer interval [0, 10] commutes with Python
rounding, so the source's round-then-clamp equals the claim's
clamp-then-round. -/
lemma clamp_pyRound_comm (q : ℚ) :
    max 0 (min 10 (pyRound q)) = pyRound (max 0 (min 10 q)) := by
  by_cases h0 : q < 0
  · have h1 : ⌊q⌋ < 0 := Int.floor_lt.mpr (by exact_mod_cast h0)
    have h2 := pyRound_le_floor_add_one q
    have h3 : max (0 : ℚ) (min 10 q) = 0 := by
      rw [min_eq_right (by linarith : q ≤ 10)]
      exact max_eq_left h0.le
    rw [h3]
    have h4 : pyRound (0 : ℚ) = 0 := by
      have := pyRound_intCast 0
      simpa using this
    omega
  · by_cases h10 : 10 < q
    · have h1 : (10 : ℤ) ≤ ⌊q⌋ := Int.le_floor.mpr (by exact_mod_cast h10.le)
      have h2 := floor_le_pyRound q
      have h3 : max (0 : ℚ) (min 10 q) = 10 := by
        rw [min_eq_left h10.le]
        norm_num
      rw [h3]
      have h4 : pyRound (10 : ℚ) = 10 := by
        have := pyRound_intCast 10
        simpa using this
      omega
    · push_neg at h0 h10
      have h3 : max (0 : ℚ) (min 10 q) = q := by
        rw [min_eq_right h10, max_eq_right h0]
      rw [h3]
      have h1 : (0 : ℤ) ≤ ⌊q⌋ := Int.le_floor.mpr (by exact_mod_cast h0)
      have h2 := floor_le_pyRound q
      have h4 := pyRound_le_floor_add_one q
      by_cases hf : ⌊q⌋ ≤ 9
      · omega
      · have h5 : ⌊q⌋ ≤ 10 := by
          have : ⌊q⌋ ≤ ⌊(10 : ℚ)⌋ := Int.floor_le_floor h10
          simpa using this
        have h6 : ⌊q⌋ = 10 := by omega
        have h7 : q = 10 := by
          have h8 : (10 : ℚ) ≤ q := by
            have := Int.floor_le q
            rw [h6] at this
            exact_mod_cast this
          linarith
        rw [h7]
        have h9 : pyRound (10 : ℚ) = 10 := by
          have := pyRound_intCast 10
          simpa using this
        omega

lemma ratingMultiplier_of_user (m : MovieInfo) (q : ℚ)
    (h : m.user_rating = some q) (hq : q ≠ 0) :
    ratingMultiplier m = ratingMultipliersGet (max 0 (min 10 (pyRound q))) := by
  simp [ratingMultiplier, effectiveRating, h, hq]

/-- Concrete movie whose effective rating is 1 (multiplier 0.2). -/
def c6Movie1 : MovieInfo := { emptyInfo with user_rating := some 1 }

/-- Concrete movie whose effective rating is 0 (multiplier 0.1). -/
def c6Movie0 : MovieInfo := { emptyInfo with audience_rating := some 0 }

lemma c6Movie1_mult : ratingMultiplier c6Movie1 = 2/10 := by
  rw [ratingMultiplier_of_user c6Movie1 1 rfl (by norm_num)]
  rw [pyRound_eval 1 1 (by norm_num)]
  norm_num [ratingMultipliersGet]

lemma c6Movie0_mult : ratingMultiplier c6Movie0 = 1/10 := by
  have e : effectiveRating c6Movie0 = 0 := by
    simp [effectiveRating, c6Movie0, emptyInfo]
  rw [ratingMultiplier, e, pyRound_eval 0 0 (by norm_num)]
  norm_num [ratingMultipliersGet]

/-- C6 counterexample: the multiplier table does not rise in steps of 0.2
throughout — the step from rating 0 to rating 1 is 0.1. -/
theorem C6_counterexample :
    ratingMultiplier c6Movie1 - ratingMultiplier c6Movie0 = 1/10 ∧
    (1/10 : ℚ) ≠ 2/10 := by
  rw [c6Movie1_mult, c6Movie0_mult]
  norm_num

/-- C6 (amended): the rating multiplier is obtained by clamping the
effective rating to [0, 10], rounding (half to even) to an integer, and
looking it up in the fixed table; explicit ratings above 10 clamp to
multiplier 2.0 and below 0 to 0.1; rating 5 maps to 1.0, rating 10 to
2.0, rating 0 to 0.1; an absent rating defaults to the neutral 1.0; and
the table rises in steps of 0.2 except for the first step (rating 0 to
1), which is 0.1. -/
theorem C6_rating_multiplier_spec :
    (∀ m : MovieInfo, ∀ q : ℚ, m.user_rating = some q → 10 < q →
      ratingMultiplier m = 2) ∧
    (∀ m : MovieInfo, ∀ q : ℚ, m.user_rating = some q → q < 0 →
      ratingMultiplier m = 1/10) ∧
    (∀ m : MovieInfo, m.user_rating = some 5 → ratingMultiplier m = 1) ∧
    (∀ m : MovieInfo, m.user_rating = some 10 → ratingMultiplier m = 2) ∧
    (∀ m : MovieInfo, m.user_rating = none → m.audience_rating = some 0 →
      ratingMultiplier m = 1/10) ∧
    (∀ m : MovieInfo, m.user_rating = none → m.audience_rating = none →
      ratingMultiplier m = 1) ∧
    (∀ m : MovieInfo, ratingMultiplier m =
      ratingMultipliersGet (pyRound (max 0 (min 10 (effectiveRating m))))) ∧
    (∀ k : ℤ, 1 ≤ k → k < 10 →
      ratingMultipliersGet (k + 1) = ratingMultipliersGet k + 2/10) ∧
    ratingMultipliersGet 1 = ratingMultipliersGet 0 + 1/10 := by
  refine ⟨?_, ?_, ?_, ?_, ?_, ?_, ?_, ?_, by norm_num [ratingMultipliersGet]⟩
  · intro m q h hq
    rw [ratingMultiplier_of_user m q h (by linarith)]
    have h1 : (10 : ℤ) ≤ ⌊q⌋ := Int.le_floor.mpr (by exact_mod_cast hq.le)
    have h2 := floor_le_pyRound q
    have h3 : max 0 (min 10 (pyRound q)) = 10 := by omega
    rw [h3]
    norm_num [ratingMultipliersGet]
  · intro m q h hq
    rw [ratingMultiplier_of_user m q h (by linarith)]
    have h1 : ⌊q⌋ < 0 := Int.floor_lt.mpr (by exact_mod_cast hq)
    have h2 := pyRound_le_floor_add_one q
    have h3 : max 0 (min 10 (pyRound q)) = 0 := by omega
    rw [h3]
    norm_num [ratingMultipliersGet]
  · intro m h
    rw [ratingMultiplier_of_user m 5 h (by norm_num)]
    rw [pyRound_eval 5 5 (by norm_num)]
    norm_num [ratingMultipliersGet]
  · intro m h
    rw [ratingMultiplier_of_user m 10 h (by norm_num)]
    rw [pyRound_eval 10 10 (by norm_num)]
    norm_num [ratingMultipliersGet]
  · intro m h1 h2
    have e : effectiveRating m = 0 := by simp [effectiveRating, h1, h2]
    rw [ratingMultiplier, e, pyRound_eval 0 0 (by norm_num)]
    norm_num [ratingMultipliersGet]
  · intro m h1 h2
    have e : effectiveRating m = 5 := by simp [effectiveRating, h1, h2]
    rw [ratingMultiplier, e, pyRound_eval 5 5 (by norm_num)]
    norm_num [ratingMultipliersGet]
  · intro m
    rw [ratingMultiplier, clamp_pyRound_comm]
  · intro k h1 h2
    interval_cases k <;> norm_num [ratingMultipliersGet]

/-- Witness for C6 (amended): an explicit rating of 12 clamps to the top
multiplier 2.0. -/
theorem C6_rating_multiplier_spec_witness :
    ratingMultiplier { emptyInfo with user_rating := some 12 } = 2 :=
  C6_rating_multiplier_spec.1 _ 12 rfl (by norm_num)

/-! ## The similarity scorer (`_calculate_similarity_from_cache`) -/

/-- The five per-dimension weights (`self.weights`, src/MRFP.py
lines 400-406). -/
structure Weights where
  genre_weight : ℚ
  director_weight : ℚ
  actor_weight : ℚ
  language_weight : ℚ
  keyword_weight : ℚ
  deriving DecidableEq

/-- The watched-data counters (`self.watched_data`) the scorer reads as
`user_prefs` (src/MRFP.py lines 1930-1936). -/
structure WatchedCounters where
  genres : Counter
  directors : Counter
  actors : Counter
  languages : Counter
  tmdb_keywords : Counter
  deriving DecidableEq

/-- The per-feature normalized score (src/MRFP.py lines 1953-1966 and the
analogous branches of the other dimensions): `sqrt(count/max)` when
`normalize_counters` is set, else `min(count/max, 1.0)`. -/
noncomputable def normValue (normalize : Bool) (count maxc : ℚ) : ℝ :=
  if normalize then Real.sqrt ((count : ℝ) / (maxc : ℝ))
  else min ((count : ℝ) / (maxc : ℝ)) 1

/-- The feature values of a candidate that occur with positive weight in
the profile counter (the `if count > 0` guard in every dimension loop). -/
def matchedKeys (prefs : Counter) (keys : List String) : List String :=
  keys.filter (fun k => decide (0 < cget prefs k))

/-- The list of normalized scores collected by a dimension loop. -/
noncomputable def matchedScores (normalize : Bool) (prefs : Counter)
    (keys : List String) : List ℝ :=
  (matchedKeys prefs keys).map
    (fun k => normValue normalize (cget prefs k) (cmax prefs))

/-- `(sum(scores) / len(scores)) * weight` when any feature matched, else
no contribution — the shape shared by the genre, director and keyword
dimensions. -/
noncomputable def avgTimesWeight (normalize : Bool) (prefs : Counter)
    (w : ℚ) (keys : List String) : ℝ :=
  if matchedKeys prefs keys = [] then 0
  else ((matchedScores normalize prefs keys).sum /
    ((matchedKeys prefs keys).length : ℝ)) * (w : ℝ)

/-- Genre score (src/MRFP.py lines 1946-1970): the candidate's genres are
taken as a set (`set(movie_info.get('genres', []))`), and the average is
over the matched genres only. -/
noncomputable def genreContribution (normalize : Bool) (prefs : Counter)
    (w : ℚ) (genres : List String) : ℝ :=
  avgTimesWeight normalize prefs w genres.dedup

/-- Director score (src/MRFP.py lines 1972-1991): average over matched
directors only. -/
noncomputable def directorContribution (normalize : Bool) (prefs : Counter)
    (w : ℚ) (directors : List String) : ℝ :=
  avgTimesWeight normalize prefs w directors

/-- Actor score (src/MRFP.py lines 1993-2017): average over matched cast
members, additionally scaled by `3/matched_count` when more than 3
actors match. -/
noncomputable def actorContribution (normalize : Bool) (prefs : Counter)
    (w : ℚ) (cast : List String) : ℝ :=
  if matchedKeys prefs cast = [] then 0
  else
    ((if 3 < (matchedKeys prefs cast).length then
        ((matchedScores normalize prefs cast).sum /
          ((matchedKeys prefs cast).length : ℝ)) *
          ((3 : ℝ) / ((matchedKeys prefs cast).length : ℝ))
      else
        (matchedScores normalize prefs cast).sum /
          ((matchedKeys prefs cast).length : ℝ)) * (w : ℝ))

/-- Language score (src/MRFP.py lines 2019-2035): the single primary
language, looked up lowercased, skipped at the "N/A" sentinel. -/
noncomputable def languageContribution (normalize : Bool) (prefs : Counter)
    (w : ℚ) (lang : String) : ℝ :=
  if lang ≠ "N/A" then
    if 0 < cget prefs lang.toLower then
      normValue normalize (cget prefs lang.toLower) (cmax prefs) * (w : ℝ)
    else 0
  else 0

/-- TMDB keyword score (src/MRFP.py lines 2037-2055), gated on the
`use_tmdb_keywords` setting and a non-empty keyword list. -/
noncomputable def keywordContribution (normalize use_kw : Bool)
    (prefs : Counter) (w : ℚ) (keywords : List String) : ℝ :=
  if use_kw ∧ keywords ≠ [] then avgTimesWeight normalize prefs w keywords
  else 0

/-- The score before the final ceiling: the sum of the five per-dimension
contributions accumulated into `score`. -/
noncomputable def totalScorePreClamp (normalize use_kw : Bool) (w : Weights)
    (wd : WatchedCounters) (m : MovieInfo) : ℝ :=
  genreContribution normalize wd.genres w.genre_weight m.genres
    + directorContribution normalize wd.directors w.director_weight m.directors
    + actorContribution normalize wd.actors w.actor_weight m.cast
    + languageContribution normalize wd.languages w.language_weight m.language
    + keywordContribution normalize use_kw wd.tmdb_keywords w.keyword_weight
        m.tmdb_keywords

/-- The similarity score returned by `_calculate_similarity_from_cache`:
the weighted sum clamped with `score = min(score, 1.0)`
(src/MRFP.py line 2058). -/
noncomputable def calculateSimilarity (normalize use_kw : Bool) (w : Weights)
    (wd : WatchedCounters) (m : MovieInfo) : ℝ :=
  min (totalScorePreClamp normalize use_kw w wd m) 1

/-- `round(x, d)` on the real model of a float.  Tie-breaking differs from
Python (half up here, half even there); no claim depends on ties of
these display roundings. -/
noncomputable def roundTo (d : ℕ) (x : ℝ) : ℝ :=
  ((round (x * (10 : ℝ) ^ d) : ℤ) : ℝ) / (10 : ℝ) ^ d

/-- The data carried by one matched-feature detail string
`f"{name} (count: {count}, norm: {round(norm, 2)})"`. -/
structure DimDetail where
  name : String
  count : ℚ
  norm : ℝ

/-- The `score_breakdown` dictionary (src/MRFP.py lines 1914-1927):
per-dimension rounded scores plus the matched-feature details. -/
structure ScoreBreakdown where
  genre_score : ℝ
  director_score : ℝ
  actor_score : ℝ
  language_score : ℝ
  keyword_score : ℝ
  genres : List DimDetail
  directors : List DimDetail
  actors : List DimDetail
  language : Option DimDetail
  keywords : List DimDetail

/-- The detail entries a dimension loop appends for its matched values. -/
noncomputable def dimDetails (normalize : Bool) (prefs : Counter)
    (keys : List String) : List DimDetail :=
  (matchedKeys prefs keys).map (fun k =>
    { name := k, count := cget prefs k
      norm := roundTo 2 (normValue normalize (cget prefs k) (cmax prefs)) })

/-- `_calculate_similarity_from_cache` (src/MRFP.py lines 1910-2060):
the clamped score together with the explainability breakdown. -/
noncomputable def calculateSimilarityFromCache (normalize use_kw : Bool)
    (w : Weights) (wd : WatchedCounters) (m : MovieInfo) :
    ℝ × ScoreBreakdown :=
  (calculateSimilarity normalize use_kw w wd m,
    { genre_score :=
        roundTo 3 (genreContribution normalize wd.genres w.genre_weight m.genres)
      director_score :=
        roundTo 3 (directorContribution normalize wd.directors w.director_weight
          m.directors)
      actor_score :=
        roundTo 3 (actorContribution normalize wd.actors w.actor_weight m.cast)
      language_score :=
        roundTo 3 (languageContribution normalize wd.languages w.language_weight
          m.language)
      keyword_score :=
        roundTo 3 (keywordContribution normalize use_kw wd.tmdb_keywords
          w.keyword_weight m.tmdb_keywords)
      genres := dimDetails normalize wd.genres m.genres.dedup
      directors := dimDetails normalize wd.directors m.directors
      actors := dimDetails normalize wd.actors m.cast
      language :=
        if m.language ≠ "N/A" ∧ 0 < cget wd.languages m.language.toLower then
          some { name := m.language, count := cget wd.languages m.language.toLower
                 norm := roundTo 2 (normValue normalize
                   (cget wd.languages m.language.toLower) (cmax wd.languages)) }
        else none
      keywords :=
        if use_kw ∧ m.tmdb_keywords ≠ [] then
          dimDetails normalize wd.tmdb_keywords m.tmdb_keywords
        else [] })

/-! ## Bounds on the scorer -/

lemma le_valsMax_left (l : List ℚ) (acc : ℚ) : acc ≤ valsMax acc l := by
  induction l generalizing acc with
  | nil => exact le_refl _
  | cons v vs ih => exact le_trans (le_max_left acc v) (ih (max acc v))

lemma mem_le_valsMax {x : ℚ} (l : List ℚ) (acc : ℚ) (h : x ∈ l) :
    x ≤ valsMax acc l := by
  induction l generalizing acc with
  | nil => cases h
  | cons v vs ih =>
    rcases List.mem_cons.mp h with h1 | h1
    · subst h1
      exact le_trans (le_max_right acc x) (le_valsMax_left vs (max acc x))
    · exact ih (max acc v) h1

lemma cget_mem_snds {c : Counter} {k : String} (h : cget c k ≠ 0) :
    cget c k ∈ c.map Prod.snd := by
  induction c with
  | nil => exact absurd rfl h
  | cons p rest ih =>
    obtain ⟨a, v⟩ := p
    by_cases ha : a = k
    · simp [cget, ha]
    · have h2 : cget ((a, v) :: rest) k = cget rest k := by simp [cget, ha]
      rw [h2] at h ⊢
      exact List.mem_cons_of_mem _ (ih h)

lemma snd_le_cmax {c : Counter} {x : ℚ} (h : x ∈ c.map Prod.snd) :
    x ≤ cmax c := by
  cases c with
  | nil => cases h
  | cons p rest =>
    obtain ⟨a, v⟩ := p
    rcases List.mem_cons.mp h with h1 | h1
    · subst h1
      exact le_valsMax_left _ _
    · exact mem_le_valsMax _ _ h1

lemma cget_le_cmax {c : Counter} {k : String} (h : 0 < cget c k) :
    cget c k ≤ cmax c :=
  snd_le_cmax (cget_mem_snds h.ne')

lemma normValue_nonneg (nz : Bool) {c m : ℚ} (hc : 0 < c) (hm : c ≤ m) :
    0 ≤ normValue nz c m := by
  unfold normValue
  split
  · exact Real.sqrt_nonneg _
  · have hm0 : (0 : ℝ) < (m : ℝ) := by exact_mod_cast lt_of_lt_of_le hc hm
    exact le_min (div_nonneg (by exact_mod_cast hc.le) hm0.le) zero_le_one

lemma normValue_le_one (nz : Bool) {c m : ℚ} (hc : 0 < c) (hm : c ≤ m) :
    normValue nz c m ≤ 1 := by
  unfold normValue
  split
  · refine Real.sqrt_le_one.mpr ?_
    have hm0 : (0 : ℝ) < (m : ℝ) := by exact_mod_cast lt_of_lt_of_le hc hm
    exact (div_le_one hm0).mpr (by exact_mod_cast hm)
  · exact min_le_right _ _

lemma mem_matchedKeys {prefs : Counter} {keys : List String} {k : String} :
    k ∈ matchedKeys prefs keys ↔ k ∈ keys ∧ 0 < cget prefs k := by
  simp [matchedKeys]

lemma matchedScores_length (nz : Bool) (prefs : Counter) (keys : List String) :
    (matchedScores nz prefs keys).length = (matchedKeys prefs keys).length := by
  simp [matchedScores]

lemma matchedScores_bounds (nz : Bool) (prefs : Counter) (keys : List String) :
    ∀ x ∈ matchedScores nz prefs keys, 0 ≤ x ∧ x ≤ 1 := by
  intro x hx
  rw [matchedScores, List.mem_map] at hx
  obtain ⟨k, hk, rfl⟩ := hx
  have hpos := (mem_matchedKeys.mp hk).2
  exact ⟨normValue_nonneg nz hpos (cget_le_cmax hpos),
    normValue_le_one nz hpos (cget_le_cmax hpos)⟩

lemma matchedScores_sum_nonneg (nz : Bool) (prefs : Counter)
    (keys : List String) : 0 ≤ (matchedScores nz prefs keys).sum :=
  List.sum_nonneg fun x hx => (matchedScores_bounds nz prefs keys x hx).1

lemma matchedScores_sum_le (nz : Bool) (prefs : Counter) (keys : List String) :
    (matchedScores nz prefs keys).sum ≤ ((matchedKeys prefs keys).length : ℝ) := by
  have h := List.sum_le_card_nsmul (matchedScores nz prefs keys) 1
    (fun x hx => (matchedScores_bounds nz prefs keys x hx).2)
  simpa [matchedScores_length, nsmul_eq_mul] using h

lemma matchedAvg_bounds (nz : Bool) (prefs : Counter) (keys : List String)
    (h : matchedKeys prefs keys ≠ []) :
    0 ≤ (matchedScores nz prefs keys).sum / ((matchedKeys prefs keys).length : ℝ)
    ∧ (matchedScores nz prefs keys).sum / ((matchedKeys prefs keys).length : ℝ)
      ≤ 1 := by
  have hlen : (0 : ℝ) < ((matchedKeys prefs keys).length : ℝ) := by
    exact_mod_cast List.length_pos.mpr h
  exact ⟨div_nonneg (matchedScores_sum_nonneg nz prefs keys) hlen.le,
    (div_le_one hlen).mpr (matchedScores_sum_le nz prefs keys)⟩

lemma avgTimesWeight_bounds (nz : Bool) (prefs : Counter) (w : ℚ)
    (keys : List String) (hw : 0 ≤ w) :
    0 ≤ avgTimesWeight nz prefs w keys ∧
    avgTimesWeight nz prefs w keys ≤ (w : ℝ) := by
  have hw0 : (0 : ℝ) ≤ (w : ℝ) := by exact_mod_cast hw
  by_cases hM : matchedKeys prefs keys = []
  · rw [avgTimesWeight, if_pos hM]
    exact ⟨le_refl 0, hw0⟩
  · rw [avgTimesWeight, if_neg hM]
    obtain ⟨ha0, ha1⟩ := matchedAvg_bounds nz prefs keys hM
    constructor
    · exact mul_nonneg ha0 hw0
    · calc _ ≤ 1 * (w : ℝ) := mul_le_mul_of_nonneg_right ha1 hw0
        _ = (w : ℝ) := one_mul _

lemma genreContribution_bounds (nz : Bool) (prefs : Counter) (w : ℚ)
    (genres : List String) (hw : 0 ≤ w) :
    0 ≤ genreContribution nz prefs w genres ∧
    genreContribution nz prefs w genres ≤ (w : ℝ) :=
  avgTimesWeight_bounds nz prefs w genres.dedup hw

lemma directorContribution_bounds (nz : Bool) (prefs : Counter) (w : ℚ)
    (directors : List String) (hw : 0 ≤ w) :
    0 ≤ directorContribution nz prefs w directors ∧
    directorContribution nz prefs w directors ≤ (w : ℝ) :=
  avgTimesWeight_bounds nz prefs w directors hw

lemma actorContribution_bounds (nz : Bool) (prefs : Counter) (w : ℚ)
    (cast : List String) (hw : 0 ≤ w) :
    0 ≤ actorContribution nz prefs w cast ∧
    actorContribution nz prefs w cast ≤ (w : ℝ) := by
  have hw0 : (0 : ℝ) ≤ (w : ℝ) := by exact_mod_cast hw
  by_cases hM : matchedKeys prefs cast = []
  · rw [actorContribution, if_pos hM]
    exact ⟨le_refl 0, hw0⟩
  · rw [actorContribution, if_neg hM]
    obtain ⟨ha0, ha1⟩ := matchedAvg_bounds nz prefs cast hM
    have hfac : ∀ x : ℝ, 0 ≤ x → x ≤ 1 →
        0 ≤ (if 3 < (matchedKeys prefs cast).length then
            x * ((3 : ℝ) / ((matchedKeys prefs cast).length : ℝ)) else x) ∧
        (if 3 < (matchedKeys prefs cast).length then
            x * ((3 : ℝ) / ((matchedKeys prefs cast).length : ℝ)) else x) ≤ 1 := by
      intro x hx0 hx1
      split
      · next hgt =>
        have hn : (3 : ℝ) < ((matchedKeys prefs cast).length : ℝ) := by
          exact_mod_cast hgt
        have hq0 : (0 : ℝ) ≤ (3 : ℝ) / ((matchedKeys prefs cast).length : ℝ) :=
          div_nonneg (by norm_num) (by linarith)
        have hq1 : (3 : ℝ) / ((matchedKeys prefs cast).length : ℝ) ≤ 1 :=
          (div_le_one (by linarith)).mpr hn.le
        constructor
        · exact mul_nonneg hx0 hq0
        · calc x * ((3 : ℝ) / ((matchedKeys prefs cast).length : ℝ))
              ≤ 1 * 1 := mul_le_mul hx1 hq1 hq0 zero_le_one
            _ = 1 := one_mul 1
      · exact ⟨hx0, hx1⟩
    obtain ⟨hb0, hb1⟩ := hfac _ ha0 ha1
    constructor
    · exact mul_nonneg hb0 hw0
    · calc _ ≤ 1 * (w : ℝ) := mul_le_mul_of_nonneg_right hb1 hw0
        _ = (w : ℝ) := one_mul _

lemma languageContribution_bounds (nz : Bool) (prefs : Counter) (w : ℚ)
    (lang : String) (hw : 0 ≤ w) :
    0 ≤ languageContribution nz prefs w lang ∧
    languageContribution nz prefs w lang ≤ (w : ℝ) := by
  have hw0 : (0 : ℝ) ≤ (w : ℝ) := by exact_mod_cast hw
  unfold languageContribution
  split
  · split
    · next hpos =>
      have hle := cget_le_cmax hpos
      constructor
      · exact mul_nonneg (normValue_nonneg nz hpos hle) hw0
      · calc _ ≤ 1 * (w : ℝ) :=
            mul_le_mul_of_nonneg_right (normValue_le_one nz hpos hle) hw0
          _ = (w : ℝ) := one_mul _
    · exact ⟨le_refl 0, hw0⟩
  · exact ⟨le_refl 0, hw0⟩

lemma keywordContribution_bounds (nz use_kw : Bool) (prefs : Counter) (w : ℚ)
    (keywords : List String) (hw : 0 ≤ w) :
    0 ≤ keywordContribution nz use_kw prefs w keywords ∧
    keywordContribution nz use_kw prefs w keywords ≤ (w : ℝ) := by
  have hw0 : (0 : ℝ) ≤ (w : ℝ) := by exact_mod_cast hw
  unfold keywordContribution
  split
  · exact avgTimesWeight_bounds nz prefs w keywords hw
  · exact ⟨le_refl 0, hw0⟩

/-- The default weight configuration (src/MRFP.py lines 400-406). -/
def w0 : Weights :=
  { genre_weight := 1/4, director_weight := 1/5, actor_weight := 1/5
    language_weight := 1/10, keyword_weight := 1/4 }

/-- Empty watched-data counters. -/
def wd0 : WatchedCounters :=
  { genres := [], directors := [], actors := [], languages := []
    tmdb_keywords := [] }

/-- C7: the score returned by the scorer is the weighted sum of the five
per-dimension contributions clamped to a maximum of 1.0, and for
non-negative weights it always lies in [0, 1]. -/
theorem C7_score_clamped_weighted_sum (nz kw : Bool) (w : Weights)
    (wd : WatchedCounters) (m : MovieInfo)
    (hg : 0 ≤ w.genre_weight) (hd : 0 ≤ w.director_weight)
    (ha : 0 ≤ w.actor_weight) (hl : 0 ≤ w.language_weight)
    (hk : 0 ≤ w.keyword_weight) :
    (calculateSimilarityFromCache nz kw w wd m).1 =
      min (genreContribution nz wd.genres w.genre_weight m.genres
        + directorContribution nz wd.directors w.director_weight m.directors
        + actorContribution nz wd.actors w.actor_weight m.cast
        + languageContribution nz wd.languages w.language_weight m.language
        + keywordContribution nz kw wd.tmdb_keywords w.keyword_weight
            m.tmdb_keywords) 1 ∧
    0 ≤ (calculateSimilarityFromCache nz kw w wd m).1 ∧
    (calculateSimilarityFromCache nz kw w wd m).1 ≤ 1 := by
  have hG := genreContribution_bounds nz wd.genres w.genre_weight m.genres hg
  have hD := directorContribution_bounds nz wd.directors w.director_weight
    m.directors hd
  have hA := actorContribution_bounds nz wd.actors w.actor_weight m.cast ha
  have hL := languageContribution_bounds nz wd.languages w.language_weight
    m.language hl
  have hK := keywordContribution_bounds nz kw wd.tmdb_keywords w.keyword_weight
    m.tmdb_keywords hk
  refine ⟨rfl, ?_, ?_⟩
  · show 0 ≤ calculateSimilarity nz kw w wd m
    rw [calculateSimilarity]
    refine le_min ?_ zero_le_one
    rw [totalScorePreClamp]
    have := add_nonneg (add_nonneg (add_nonneg (add_nonneg hG.1 hD.1) hA.1) hL.1)
      hK.1
    linarith
  · show calculateSimilarity nz kw w wd m ≤ 1
    rw [calculateSimilarity]
    exact min_le_right _ _

/-- Witness for C7 at the default weights, empty counters and an empty
movie record. -/
theorem C7_score_clamped_weighted_sum_witness :
    0 ≤ (calculateSimilarityFromCache false true w0 wd0 emptyInfo).1 ∧
    (calculateSimilarityFromCache false true w0 wd0 emptyInfo).1 ≤ 1 :=
  (C7_score_clamped_weighted_sum false true w0 wd0 emptyInfo
    (by norm_num [w0]) (by norm_num [w0]) (by norm_num [w0])
    (by norm_num [w0]) (by norm_num [w0])).2

/-- C9: with non-negative weights, every per-feature normalized value lies
in [0, 1] in both normalization modes, each per-dimension contribution is
bounded by its configured weight, and the pre-clamp total never exceeds
the sum of the five weights. -/
theorem C9_contributions_bounded_by_weights (nz kw : Bool) (w : Weights)
    (wd : WatchedCounters) (m : MovieInfo)
    (hg : 0 ≤ w.genre_weight) (hd : 0 ≤ w.director_weight)
    (ha : 0 ≤ w.actor_weight) (hl : 0 ≤ w.language_weight)
    (hk : 0 ≤ w.keyword_weight) :
    (∀ b : Bool, ∀ c mx : ℚ, 0 < c → c ≤ mx →
      0 ≤ normValue b c mx ∧ normValue b c mx ≤ 1) ∧
    genreContribution nz wd.genres w.genre_weight m.genres
      ≤ (w.genre_weight : ℝ) ∧
    directorContribution nz wd.directors w.director_weight m.directors
      ≤ (w.director_weight : ℝ) ∧
    actorContribution nz wd.actors w.actor_weight m.cast
      ≤ (w.actor_weight : ℝ) ∧
    languageContribution nz wd.languages w.language_weight m.language
      ≤ (w.language_weight : ℝ) ∧
    keywordContribution nz kw wd.tmdb_keywords w.keyword_weight m.tmdb_keywords
      ≤ (w.keyword_weight : ℝ) ∧
    totalScorePreClamp nz kw w wd m ≤
      (w.genre_weight : ℝ) + (w.director_weight : ℝ) + (w.actor_weight : ℝ)
        + (w.language_weight : ℝ) + (w.keyword_weight : ℝ) := by
  have hG := genreContribution_bounds nz wd.genres w.genre_weight m.genres hg
  have hD := directorContribution_bounds nz wd.directors w.director_weight
    m.directors hd
  have hA := actorContribution_bounds nz wd.actors w.actor_weight m.cast ha
  have hL := languageContribution_bounds nz wd.languages w.language_weight
    m.language hl
  have hK := keywordContribution_bounds nz kw wd.tmdb_keywords w.keyword_weight
    m.tmdb_keywords hk
  refine ⟨?_, hG.2, hD.2, hA.2, hL.2, hK.2, ?_⟩
  · intro b c mx hc hmx
    exact ⟨normValue_nonneg b hc hmx, normValue_le_one b hc hmx⟩
  · rw [totalScorePreClamp]
    linarith [hG.2, hD.2, hA.2, hL.2, hK.2]

/-- Witness for C9 at the default weights, empty counters and an empty
movie record. -/
theorem C9_contributions_bounded_by_weights_witness :
    genreContribution false wd0.genres w0.genre_weight emptyInfo.genres
      ≤ (w0.genre_weight : ℝ) :=
  (C9_contributions_bounded_by_weights false true w0 wd0 emptyInfo
    (by norm_num [w0]) (by norm_num [w0]) (by norm_num [w0])
    (by norm_num [w0]) (by norm_num [w0])).2.1

/-- C8: the scorer is deterministic — two invocations with the same
candidate record, watched-data counters, weights and configuration flags
return identical scores and identical breakdown structures.  The embedded
scorer is a pure function of exactly these five inputs; no randomness
enters before the selection stage. -/
theorem C8_scorer_deterministic (nz1 nz2 kw1 kw2 : Bool) (w1 w2 : Weights)
    (wd1 wd2 : WatchedCounters) (m1 m2 : MovieInfo)
    (h1 : nz1 = nz2) (h2 : kw1 = kw2) (h3 : w1 = w2) (h4 : wd1 = wd2)
    (h5 : m1 = m2) :
    calculateSimilarityFromCache nz1 kw1 w1 wd1 m1 =
      calculateSimilarityFromCache nz2 kw2 w2 wd2 m2 := by
  subst h1; subst h2; subst h3; subst h4; subst h5; rfl

/-- Witness for C8 at a concrete invocation pair. -/
theorem C8_scorer_deterministic_witness :
    calculateSimilarityFromCache true true w0 wd0 emptyInfo =
      calculateSimilarityFromCache true true w0 wd0 emptyInfo :=
  C8_scorer_deterministic true true true true w0 w0 wd0 wd0 emptyInfo emptyInfo
    rfl rfl rfl rfl rfl

/-! ## The genre dimension: code formula versus spec formula -/

/-- The genre contribution as the spec words it: the average over EVERY
genre the candidate has, with genres absent from the profile contributing
0 to that average, multiplied by the genre weight.  Stated here only for
comparison with `genreContribution`, which embeds the source. -/
noncomputable def genreContributionPerSpec (normalize : Bool)
    (prefs : Counter) (w : ℚ) (genres : List String) : ℝ :=
  if genres.dedup = [] then 0
  else ((genres.dedup.map (fun g =>
      if 0 < cget prefs g then normValue normalize (cget prefs g) (cmax prefs)
      else 0)).sum / (genres.dedup.length : ℝ)) * (w : ℝ)

/-- A profile containing only genre "a" with weight 1. -/
def c3Prefs : Counter := [("a", 1)]

lemma c3_code_val : genreContribution false c3Prefs 1 ["a", "b"] = 1 := by
  have h1 : (["a", "b"] : List String).dedup = ["a", "b"] := by decide
  have h2 : matchedKeys c3Prefs ["a", "b"] = ["a"] := by decide
  have h3 : cget c3Prefs "a" = 1 := by decide
  have h4 : cmax c3Prefs = 1 := by decide
  rw [genreContribution, h1, avgTimesWeight, matchedScores, h2]
  norm_num [h3, h4, normValue]

lemma c3_spec_val : genreContributionPerSpec false c3Prefs 1 ["a", "b"] = 1/2 := by
  have h1 : (["a", "b"] : List String).dedup = ["a", "b"] := by decide
  have h3 : cget c3Prefs "a" = 1 := by decide
  have h4 : cmax c3Prefs = 1 := by decide
  have h5 : cget c3Prefs "b" = 0 := by decide
  rw [genreContributionPerSpec, h1, if_neg (by decide)]
  norm_num [h3, h4, h5, normValue]

/-- C3 counterexample: for a candidate with genres {a, b} and a profile
matching only "a" (weight 1), the code's genre contribution is the
average over the matched genre only (= 1), not the spec's average over
every candidate genre (= 1/2). -/
theorem C3_counterexample :
    genreContribution false c3Prefs 1 ["a", "b"] = 1 ∧
    genreContributionPerSpec false c3Prefs 1 ["a", "b"] = 1/2 ∧
    genreContribution false c3Prefs 1 ["a", "b"] ≠
      genreContributionPerSpec false c3Prefs 1 ["a", "b"] := by
  refine ⟨c3_code_val, c3_spec_val, ?_⟩
  rw [c3_code_val, c3_spec_val]
  norm_num

/-- C3 (amended): the genre contribution is the average of the normalized
profile weights over the MATCHED genres only — the distinct candidate
genres with positive profile weight — multiplied by the genre weight,
and 0 when no genre matches; genres absent from the profile are excluded
from the denominator rather than contributing 0 to the average.  When
every candidate genre matches, this agrees with the spec's all-genres
average. -/
theorem C3_genre_average_over_matched (nz : Bool) (prefs : Counter) (w : ℚ)
    (genres : List String) :
    (genreContribution nz prefs w genres =
      if matchedKeys prefs genres.dedup = [] then 0
      else (((matchedKeys prefs genres.dedup).map (fun g =>
          normValue nz (cget prefs g) (cmax prefs))).sum
        / ((matchedKeys prefs genres.dedup).length : ℝ)) * (w : ℝ)) ∧
    ((∀ g ∈ genres, 0 < cget prefs g) →
      genreContribution nz prefs w genres =
        genreContributionPerSpec nz prefs w genres) := by
  constructor
  · rfl
  · intro hall
    have hM : matchedKeys prefs genres.dedup = genres.dedup := by
      rw [matchedKeys, List.filter_eq_self]
      intro a ha
      exact decide_eq_true (hall a (List.mem_dedup.mp ha))
    have hmap : genres.dedup.map (fun g =>
        if 0 < cget prefs g then normValue nz (cget prefs g) (cmax prefs)
        else 0) =
        genres.dedup.map (fun g => normValue nz (cget prefs g) (cmax prefs)) :=
      List.map_congr_left
        (fun a ha => if_pos (hall a (List.mem_dedup.mp ha)))
    rw [genreContribution, genreContributionPerSpec, avgTimesWeight,
      matchedScores, hM, hmap]

/-- Witness for C3 (amended) at a fully matched candidate. -/
theorem C3_genre_average_over_matched_witness :
    genreContribution false c3Prefs 1 ["a"] =
      genreContributionPerSpec false c3Prefs 1 ["a"] :=
  (C3_genre_average_over_matched false c3Prefs 1 ["a"]).2 (by decide)

/-! ## Monotonicity of the genre dimension -/

lemma normValue_mono (nz : Bool) {c1 c2 m : ℚ} (h : c1 ≤ c2) (hm : 0 < m) :
    normValue nz c1 m ≤ normValue nz c2 m := by
  have hm0 : (0 : ℝ) < (m : ℝ) := by exact_mod_cast hm
  have hdiv : (c1 : ℝ) / (m : ℝ) ≤ (c2 : ℝ) / (m : ℝ) :=
    (div_le_div_right hm0).mpr (by exact_mod_cast h)
  unfold normValue
  split
  · exact Real.sqrt_le_sqrt hdiv
  · exact min_le_min hdiv (le_refl 1)

lemma dedup_append_singleton {g : String} {xs : List String} (h : g ∉ xs) :
    (xs ++ [g]).dedup = xs.dedup ++ [g] := by
  induction xs with
  | nil => simp
  | cons x xs ih =>
    simp only [List.mem_cons, not_or] at h
    obtain ⟨h1, h2⟩ := h
    by_cases hx : x ∈ xs
    · have hx2 : x ∈ xs ++ [g] := List.mem_append_left _ hx
      rw [List.cons_append, List.dedup_cons_of_mem hx2, ih h2,
        List.dedup_cons_of_mem hx]
    · have hx2 : x ∉ xs ++ [g] := by
        simp only [List.mem_append, List.mem_singleton, not_or]
        exact ⟨hx, fun e => h1 e.symm⟩
      rw [List.cons_append, List.dedup_cons_of_not_mem hx2, ih h2,
        List.dedup_cons_of_not_mem hx, List.cons_append]

lemma matchedKeys_append (prefs : Counter) (l1 l2 : List String) :
    matchedKeys prefs (l1 ++ l2) =
      matchedKeys prefs l1 ++ matchedKeys prefs l2 := by
  simp [matchedKeys]

lemma matchedKeys_singleton_pos {prefs : Counter} {g : String}
    (h : 0 < cget prefs g) : matchedKeys prefs [g] = [g] := by
  simp [matchedKeys, h]

lemma genreContribution_append_le (nz : Bool) (prefs : Counter) (w : ℚ)
    (genres : List String) (g : String) (hw : 0 ≤ w) (hnew : g ∉ genres)
    (hpos : 0 < cget prefs g)
    (hmax : ∀ x ∈ genres, cget prefs x ≤ cget prefs g) :
    genreContribution nz prefs w genres ≤
      genreContribution nz prefs w (genres ++ [g]) := by
  have hw0 : (0 : ℝ) ≤ (w : ℝ) := by exact_mod_cast hw
  have hcm : 0 < cmax prefs := lt_of_lt_of_le hpos (cget_le_cmax hpos)
  set s : ℝ := normValue nz (cget prefs g) (cmax prefs) with hs
  have hs0 : 0 ≤ s := normValue_nonneg nz hpos (cget_le_cmax hpos)
  have hD : (genres ++ [g]).dedup = genres.dedup ++ [g] :=
    dedup_append_singleton hnew
  have hMK : matchedKeys prefs (genres.dedup ++ [g]) =
      matchedKeys prefs genres.dedup ++ [g] := by
    rw [matchedKeys_append, matchedKeys_singleton_pos hpos]
  have hMS : matchedScores nz prefs (genres.dedup ++ [g]) =
      matchedScores nz prefs genres.dedup ++ [s] := by
    rw [matchedScores, hMK, List.map_append, ← matchedScores]
    simp [hs]
  have hSbound : ∀ x ∈ matchedScores nz prefs genres.dedup, x ≤ s := by
    intro x hx
    rw [matchedScores, List.mem_map] at hx
    obtain ⟨k, hk, rfl⟩ := hx
    obtain ⟨hk1, hk2⟩ := mem_matchedKeys.mp hk
    exact normValue_mono nz (hmax k (List.mem_dedup.mp hk1)) hcm
  rw [genreContribution, genreContribution, hD, avgTimesWeight, avgTimesWeight,
    hMK, hMS]
  by_cases hM : matchedKeys prefs genres.dedup = []
  · rw [if_pos hM, if_neg (by simp [hM]), hM]
    have hscore : matchedScores nz prefs genres.dedup = [] := by
      rw [← List.length_eq_zero, matchedScores_length, hM, List.length_nil]
    rw [hscore]
    simp only [List.nil_append, List.sum_cons, List.sum_nil, List.length_cons,
      List.length_nil, List.sum_append]
    have : (0 : ℝ) ≤ (s + 0) / ((0 : ℕ) + 1 : ℕ) * (w : ℝ) := by
      apply mul_nonneg _ hw0
      apply div_nonneg (by linarith) (by norm_num)
    simpa using this
  · rw [if_neg hM, if_neg (by simp)]
    set S := matchedScores nz prefs genres.dedup with hSdef
    set n := (matchedKeys prefs genres.dedup).length with hn
    have hn0 : 0 < n := List.length_pos.mpr hM
    have hnR : (0 : ℝ) < (n : ℝ) := by exact_mod_cast hn0
    have hSlen : S.length = n := matchedScores_length nz prefs genres.dedup
    have hsum : S.sum ≤ (n : ℝ) * s := by
      have h := List.sum_le_card_nsmul S s hSbound
      rw [hSlen] at h
      simpa [nsmul_eq_mul] using h
    have hlen2 : ((matchedKeys prefs genres.dedup ++ [g]).length : ℝ)
        = (n : ℝ) + 1 := by
      rw [List.length_append]
      push_cast
      norm_num [hn]
    rw [List.sum_append, hlen2]
    apply mul_le_mul_of_nonneg_right _ hw0
    rw [div_le_div_iff hnR (by linarith)]
    have hexp : (S.sum + ([s].sum)) * (n : ℝ) = S.sum * n + s * n := by
      simp [List.sum_cons]
      ring
    calc S.sum * ((n : ℝ) + 1) = S.sum * n + S.sum := by ring
      _ ≤ S.sum * n + (n : ℝ) * s := by linarith
      _ = (S.sum + [s].sum) * (n : ℝ) := by simp [List.sum_cons]; ring

/-- C2 (amended): adding one extra matched genre (positive profile
weight, not already on the candidate) never decreases the total score
PROVIDED the added genre's profile weight is at least that of every genre
the candidate already carries — in particular whenever no genre matched
before.  Without that proviso the claim fails (see the counterexample):
a below-average new match dilutes the matched-genre average. -/
theorem C2_genre_match_monotone (nz kw : Bool) (w : Weights)
    (wd : WatchedCounters) (m : MovieInfo) (g : String)
    (hg : 0 ≤ w.genre_weight) (hnew : g ∉ m.genres)
    (hpos : 0 < cget wd.genres g)
    (hmax : ∀ x ∈ m.genres, cget wd.genres x ≤ cget wd.genres g) :
    calculateSimilarity nz kw w wd m ≤
      calculateSimilarity nz kw w wd { m with genres := m.genres ++ [g] } := by
  have hG := genreContribution_append_le nz wd.genres w.genre_weight m.genres g
    hg hnew hpos hmax
  rw [calculateSimilarity, calculateSimilarity]
  apply min_le_min _ (le_refl 1)
  rw [totalScorePreClamp, totalScorePreClamp]
  exact add_le_add (add_le_add (add_le_add (add_le_add hG (le_refl _))
    (le_refl _)) (le_refl _)) (le_refl _)

/-- The genre profile for the C2 counterexample: "a" dominant, "b" weak. -/
def c2Watched : WatchedCounters :=
  { genres := [("a", 4), ("b", 1)], directors := [], actors := []
    languages := [], tmdb_keywords := [] }

/-- Candidate matching only the dominant genre. -/
def c2Movie1 : MovieInfo := { emptyInfo with genres := ["a"] }

/-- The same candidate with the weak matched genre "b" added. -/
def c2Movie2 : MovieInfo := { emptyInfo with genres := ["a", "b"] }

lemma avgTimesWeight_nil_keys (nz : Bool) (prefs : Counter) (w : ℚ) :
    avgTimesWeight nz prefs w [] = 0 := by
  simp [avgTimesWeight, matchedKeys]

lemma actorContribution_nil (nz : Bool) (prefs : Counter) (w : ℚ) :
    actorContribution nz prefs w [] = 0 := by
  simp [actorContribution, matchedKeys]

lemma languageContribution_na (nz : Bool) (prefs : Counter) (w : ℚ) :
    languageContribution nz prefs w "N/A" = 0 := by
  simp [languageContribution]

lemma keywordContribution_nil (nz kw : Bool) (prefs : Counter) (w : ℚ) :
    keywordContribution nz kw prefs w [] = 0 := by
  simp [keywordContribution]

lemma c2_score_eq_genre (m : MovieInfo) (hdir : m.directors = [])
    (hcast : m.cast = []) (hlang : m.language = "N/A")
    (hkw : m.tmdb_keywords = []) :
    calculateSimilarity false true w0 c2Watched m =
      min (genreContribution false c2Watched.genres w0.genre_weight m.genres) 1 := by
  rw [calculateSimilarity, totalScorePreClamp, hdir, hcast, hlang, hkw,
    directorContribution, avgTimesWeight_nil_keys, actorContribution_nil,
    languageContribution_na, keywordContribution_nil]
  ring_nf

lemma c2_genre_m1 :
    genreContribution false c2Watched.genres w0.genre_weight ["a"] = 1/4 := by
  have h1 : (["a"] : List String).dedup = ["a"] := by decide
  have h2 : matchedKeys c2Watched.genres ["a"] = ["a"] := by decide
  have h3 : cget c2Watched.genres "a" = 4 := by decide
  have h4 : cmax c2Watched.genres = 4 := by decide
  rw [genreContribution, h1, avgTimesWeight, matchedScores, h2]
  norm_num [h3, h4, normValue, w0]

lemma c2_genre_m2 :
    genreContribution false c2Watched.genres w0.genre_weight ["a", "b"] = 5/32 := by
  have h1 : (["a", "b"] : List String).dedup = ["a", "b"] := by decide
  have h2 : matchedKeys c2Watched.genres ["a", "b"] = ["a", "b"] := by decide
  have h3 : cget c2Watched.genres "a" = 4 := by decide
  have h4 : cmax c2Watched.genres = 4 := by decide
  have h5 : cget c2Watched.genres "b" = 1 := by decide
  rw [genreContribution, h1, avgTimesWeight, matchedScores, h2,
    if_neg (show ¬(["a", "b"] : List String) = [] by decide)]
  norm_num [h3, h4, h5, normValue, w0]

/-- C2 counterexample: extending the matched-genre set of `c2Movie1` by
the positively weighted genre "b" STRICTLY DECREASES the total similarity
score (1/4 drops to 5/32), refuting the claimed monotonicity. -/
theorem C2_counterexample :
    "b" ∉ c2Movie1.genres ∧ 0 < cget c2Watched.genres "b" ∧
    c2Movie2 = { c2Movie1 with genres := c2Movie1.genres ++ ["b"] } ∧
    calculateSimilarity false true w0 c2Watched c2Movie2 <
      calculateSimilarity false true w0 c2Watched c2Movie1 := by
  refine ⟨by decide, by decide, by decide, ?_⟩
  rw [c2_score_eq_genre c2Movie1 rfl rfl rfl rfl,
    c2_score_eq_genre c2Movie2 rfl rfl rfl rfl]
  show min (genreContribution false c2Watched.genres w0.genre_weight
      ["a", "b"]) 1 <
    min (genreContribution false c2Watched.genres w0.genre_weight ["a"]) 1
  rw [c2_genre_m1, c2_genre_m2]
  norm_num

/-- Witness for C2 (amended): adding the dominant genre "a" to a candidate
with no genres does not decrease the score. -/
theorem C2_genre_match_monotone_witness :
    calculateSimilarity false true w0 c2Watched emptyInfo ≤
      calculateSimilarity false true w0 c2Watched
        { emptyInfo with genres := emptyInfo.genres ++ ["a"] } :=
  C2_genre_match_monotone false true w0 c2Watched emptyInfo "a"
    (by norm_num [w0]) (by decide) (by decide) (by decide)

/-! ## Recommendation selection (`get_recommendations`) -/

/-- A scored candidate as the selection stage sees it: the rating used by
the quality sort (`ratings.imdb_rating` / `audience_rating`, default 0)
and the attached `similarity_score`. -/
structure ScoredMovie where
  id : ℕ
  rating : ℚ
  similarity : ℚ
  deriving DecidableEq

/-- Insert into a descending-sorted list, before the first strictly
smaller key — the stable placement Python's `list.sort(key=...,
reverse=True)` gives an earlier element among equal keys. -/
def insertDescBy {β : Type} [LinearOrder β] (key : ScoredMovie → β)
    (a : ScoredMovie) : List ScoredMovie → List ScoredMovie
  | [] => [a]
  | b :: l => if key a < key b then b :: insertDescBy key a l else a :: b :: l

/-- Stable insertion sort, descending by `key` (models
`list.sort(key=..., reverse=True)`). -/
def sortDescBy {β : Type} [LinearOrder β] (key : ScoredMovie → β) :
    List ScoredMovie → List ScoredMovie
  | [] => []
  | a :: l => insertDescBy key a (sortDescBy key l)

/-- The library-mode selection in `get_recommendations` (src/MRFP.py
lines 2444-2454): one sort by similarity descending; with
`randomize_recommendations` a top pool of `max(int(len*0.1), limit)` is
sampled, otherwise the top `limit` are taken directly.  `sample` models
`random.sample(pool, k)`; `int(len*0.1)` is modelled as `len / 10`. -/
def mrfpLibrarySelect (scored : List ScoredMovie) (limit : ℕ)
    (randomize : Bool) (sample : List ScoredMovie → ℕ → List ScoredMovie) :
    List ScoredMovie :=
  let sorted := sortDescBy (fun x => x.similarity) scored
  if randomize then
    let top := sorted.take (max (sorted.length / 10) limit)
    sample top (min limit top.length)
  else sorted.take limit

/-- The library-mode selection in the earlier revision (src/RFP.py
lines 404-432): sort by the (rating, similarity) tuple descending, keep
the top `max(int(len*0.5), limit)`, re-sort by similarity, keep the top
`max(int(len*0.3), limit)`, then ALWAYS randomly sample from that final
pool (there is no non-random branch in this revision).  `int(len*0.3)`
is modelled as `len * 3 / 10`. -/
def rfpLibrarySelect (scored : List ScoredMovie) (limit : ℕ)
    (sample : List ScoredMovie → ℕ → List ScoredMovie) : List ScoredMovie :=
  let s1 := sortDescBy (fun x => toLex (x.rating, x.similarity)) scored
  let top_movies := s1.take (max (s1.length / 2) limit)
  let s2 := sortDescBy (fun x => x.similarity) top_movies
  let final_pool := s2.take (max (s2.length * 3 / 10) limit)
  if final_pool = [] then []
  else sample final_pool (min limit final_pool.length)

/-- The claim's two-stage selection with randomize == False, following
the spec's words (no source function implements it: MRFP.py sorts once by
similarity, RFP.py always samples): sort by the rating key descending,
keep the top `max(50%, limit)`; re-sort by similarity descending, keep
the top `max(30%, limit)`; take the top `limit` directly. -/
def specTwoStageSelect (scored : List ScoredMovie) (limit : ℕ) :
    List ScoredMovie :=
  let s1 := sortDescBy (fun x => x.rating) scored
  let pool1 := s1.take (max (s1.length / 2) limit)
  let s2 := sortDescBy (fun x => x.similarity) pool1
  let pool2 := s2.take (max (s2.length * 3 / 10) limit)
  pool2.take limit

lemma insertDescBy_perm {β : Type} [LinearOrder β] (key : ScoredMovie → β)
    (a : ScoredMovie) (l : List ScoredMovie) :
    (insertDescBy key a l).Perm (a :: l) := by
  induction l with
  | nil => exact List.Perm.refl _
  | cons b l ih =>
    rw [insertDescBy]
    split
    · exact ((ih.cons b).trans (List.Perm.swap a b l))
    · exact List.Perm.refl _

lemma sortDescBy_perm {β : Type} [LinearOrder β] (key : ScoredMovie → β)
    (l : List ScoredMovie) : (sortDescBy key l).Perm l := by
  induction l with
  | nil => exact List.Perm.refl _
  | cons a l ih =>
    rw [sortDescBy]
    exact (insertDescBy_perm key a (sortDescBy key l)).trans (ih.cons a)

lemma insertDescBy_sorted {β : Type} [LinearOrder β] (key : ScoredMovie → β)
    (a : ScoredMovie) {l : List ScoredMovie}
    (h : l.Pairwise (fun x y => key y ≤ key x)) :
    (insertDescBy key a l).Pairwise (fun x y => key y ≤ key x) := by
  induction l with
  | nil => simp [insertDescBy]
  | cons b l ih =>
    obtain ⟨hb, hl⟩ := List.pairwise_cons.mp h
    rw [insertDescBy]
    split
    · next hab =>
      refine List.Pairwise.cons ?_ (ih hl)
      intro y hy
      have hy2 : y ∈ a :: l := (insertDescBy_perm key a l).mem_iff.mp hy
      rcases List.mem_cons.mp hy2 with rfl | hyl
      · exact le_of_lt hab
      · exact hb y hyl
    · next hab =>
      refine List.Pairwise.cons ?_ h
      intro y hy
      rcases List.mem_cons.mp hy with rfl | hyl
      · exact not_lt.mp hab
      · exact le_trans (hb y hyl) (not_lt.mp hab)

lemma sortDescBy_sorted {β : Type} [LinearOrder β] (key : ScoredMovie → β)
    (l : List ScoredMovie) :
    (sortDescBy key l).Pairwise (fun x y => key y ≤ key x) := by
  induction l with
  | nil => simp [sortDescBy]
  | cons a l ih =>
    rw [sortDescBy]
    exact insertDescBy_sorted key a ih

/-- C4 (amended): in library mode with randomize == False the output is
exactly the top `limit` candidates of the SINGLE sort by similarity score
descending — not of a two-stage rating-then-similarity sort: the output
is a prefix of the similarity-sorted permutation of the pool, it is
sorted by similarity descending, it has `min(limit, pool size)` elements,
every selected candidate scores at least every unselected one, and the
result is deterministic — it does not depend on the sampler at all. -/
theorem C4_library_select_nonrandom (scored : List ScoredMovie) (limit : ℕ)
    (sample : List ScoredMovie → ℕ → List ScoredMovie) :
    mrfpLibrarySelect scored limit false sample =
      (sortDescBy (fun x => x.similarity) scored).take limit ∧
    ((sortDescBy (fun x => x.similarity) scored).Perm scored) ∧
    (mrfpLibrarySelect scored limit false sample).Pairwise
      (fun x y => y.similarity ≤ x.similarity) ∧
    (mrfpLibrarySelect scored limit false sample).length
      = min limit scored.length ∧
    (∀ x ∈ mrfpLibrarySelect scored limit false sample,
      ∀ y ∈ (sortDescBy (fun x => x.similarity) scored).drop limit,
        y.similarity ≤ x.similarity) ∧
    (∀ sample2 : List ScoredMovie → ℕ → List ScoredMovie,
      mrfpLibrarySelect scored limit false sample =
        mrfpLibrarySelect scored limit false sample2) := by
  have hperm := sortDescBy_perm (fun x : ScoredMovie => x.similarity) scored
  have hsorted := sortDescBy_sorted (fun x : ScoredMovie => x.similarity) scored
  have hsplit := List.take_append_drop limit
    (sortDescBy (fun x => x.similarity) scored)
  have hpw := List.pairwise_append.mp (by rw [hsplit]; exact hsorted)
  refine ⟨rfl, hperm, ?_, ?_, ?_, fun sample2 => rfl⟩
  · show ((sortDescBy (fun x => x.similarity) scored).take limit).Pairwise _
    exact hpw.1
  · show ((sortDescBy (fun x => x.similarity) scored).take limit).length = _
    rw [List.length_take, hperm.length_eq]
  · intro x hx y hy
    exact hpw.2.2 x hx y hy

/-- Witness for C4 (amended) at a concrete 4-movie pool. -/
theorem C4_library_select_nonrandom_witness :
    mrfpLibrarySelect
        [⟨1, 1, 5⟩, ⟨2, 9, 4⟩, ⟨3, 2, 8⟩, ⟨4, 7, 1⟩] 2 false
        (fun l n => l.take n) =
      (sortDescBy (fun x => x.similarity)
        [⟨1, 1, 5⟩, ⟨2, 9, 4⟩, ⟨3, 2, 8⟩, ⟨4, 7, 1⟩]).take 2 ∧
    (mrfpLibrarySelect [⟨1, 1, 5⟩, ⟨2, 9, 4⟩, ⟨3, 2, 8⟩, ⟨4, 7, 1⟩] 2 false
        (fun l n => l.take n)).length = min 2 4 :=
  ⟨(C4_library_select_nonrandom
      [⟨1, 1, 5⟩, ⟨2, 9, 4⟩, ⟨3, 2, 8⟩, ⟨4, 7, 1⟩] 2 (fun l n => l.take n)).1,
    (C4_library_select_nonrandom
      [⟨1, 1, 5⟩, ⟨2, 9, 4⟩, ⟨3, 2, 8⟩, ⟨4, 7, 1⟩] 2
      (fun l n => l.take n)).2.2.2.1⟩

/-- The C4 counterexample pool: movie 1 has the highest similarity but
the lowest rating; movies 2..20 have rating and similarity equal to
their id. -/
def c4Pool : List ScoredMovie :=
  [⟨1, 0, 100⟩, ⟨2, 2, 2⟩, ⟨3, 3, 3⟩, ⟨4, 4, 4⟩, ⟨5, 5, 5⟩, ⟨6, 6, 6⟩,
   ⟨7, 7, 7⟩, ⟨8, 8, 8⟩, ⟨9, 9, 9⟩, ⟨10, 10, 10⟩, ⟨11, 11, 11⟩,
   ⟨12, 12, 12⟩, ⟨13, 13, 13⟩, ⟨14, 14, 14⟩, ⟨15, 15, 15⟩, ⟨16, 16, 16⟩,
   ⟨17, 17, 17⟩, ⟨18, 18, 18⟩, ⟨19, 19, 19⟩, ⟨20, 20, 20⟩]

/-- C4 counterexample: on a pool of 20 scored candidates with limit 5 and
randomize == False, the library selection (src/MRFP.py) does NOT return
the top 5 of the spec's two-stage sort — movie 1 (highest similarity,
lowest rating) is selected by the code but eliminated by the two-stage
rating filter. -/
theorem C4_counterexample :
    c4Pool.length = 20 ∧
    mrfpLibrarySelect c4Pool 5 false (fun l n => l.take n) ≠
      specTwoStageSelect c4Pool 5 := by
  constructor
  · decide
  · decide

/-! ## Taste-profile accumulation and cast truncation -/

/-- Add `v` to the counter entry of every key in `keys`, in order. -/
def caddMany (c : Counter) (keys : List String) (v : ℚ) : Counter :=
  keys.foldl (fun acc k => cadd acc k v) c

/-- `_process_movie_counters_from_cache` (src/MRFP.py lines 990-1024):
accumulate a watched movie into the five counters, weighted by the rating
multiplier.  Actors are truncated to the first 3 cast entries; the
keyword branch requires a `tmdb_id` and the movie being found in the
movie cache by title and year; `Counter.update` over the dict
comprehension adds the multiplier once per DISTINCT keyword. -/
def processMovieCounters (cacheMovies : List (String × MovieInfo))
    (m : MovieInfo) (c : WatchedCounters) : WatchedCounters :=
  let mult := ratingMultiplier m
  { genres := caddMany c.genres m.genres mult
    directors := caddMany c.directors m.directors mult
    actors := caddMany c.actors (m.cast.take 3) mult
    languages :=
      if m.language ≠ "" then cadd c.languages m.language.toLower mult
      else c.languages
    tmdb_keywords :=
      match m.tmdb_id with
      | none => c.tmdb_keywords
      | some _ =>
        if (cacheMovies.find? (fun p =>
              p.2.title == m.title && p.2.year == m.year)).isSome
            ∧ m.tmdb_keywords ≠ [] then
          caddMany c.tmdb_keywords m.tmdb_keywords.dedup mult
        else c.tmdb_keywords }

/-- C10: a cache-built record stores at most the first 3 credited cast
members; the profile accumulation reads at most the first 3 cast entries
(so cast entries beyond the third never influence the actor counters);
for a cache-built candidate at most 3 actors can match, and the
`3/matched_count` scaling branch of the actor score never fires — the
actor contribution is exactly the plain matched average times the
weight. -/
theorem C10_cast_truncated_no_actor_scaling (p : PlexMovie)
    (tid : Option Int) (kws : List String) (nz : Bool) (prefs : Counter)
    (w : ℚ) (cm : List (String × MovieInfo)) (m : MovieInfo)
    (c : WatchedCounters) :
    (fetchMovieInfo p tid kws).cast.length ≤ 3 ∧
    (processMovieCounters cm m c).actors =
      (processMovieCounters cm { m with cast := m.cast.take 3 } c).actors ∧
    (matchedKeys prefs (fetchMovieInfo p tid kws).cast).length ≤ 3 ∧
    actorContribution nz prefs w (fetchMovieInfo p tid kws).cast =
      (if matchedKeys prefs (fetchMovieInfo p tid kws).cast = [] then 0
       else ((matchedScores nz prefs (fetchMovieInfo p tid kws).cast).sum /
         ((matchedKeys prefs (fetchMovieInfo p tid kws).cast).length : ℝ))
           * (w : ℝ)) := by
  have hcast : (fetchMovieInfo p tid kws).cast.length ≤ 3 := by
    rw [fetchMovieInfo]
    simp only [List.length_take]
    exact min_le_left 3 p.roles.length
  have hmatched : (matchedKeys prefs (fetchMovieInfo p tid kws).cast).length
      ≤ 3 :=
    le_trans (List.length_filter_le _ _) hcast
  refine ⟨hcast, ?_, hmatched, ?_⟩
  · simp [processMovieCounters, List.take_take, ratingMultiplier,
      effectiveRating]
  · rw [actorContribution]
    by_cases hM : matchedKeys prefs (fetchMovieInfo p tid kws).cast = []
    · rw [if_pos hM, if_pos hM]
    · rw [if_neg hM, if_neg hM, if_neg (not_lt.mpr hmatched)]

end MRFP
